import Mathlib

/-!
Shallow embedding of `Window::SystemMediaControlsManager`
(src/Telegram/SourceFiles/window/system_media_controls_manager.cpp).

The constructor installs reactive subscriptions that translate player
events into calls on a platform media-controls widget and widget commands
into player calls.  We model the installed subscriptions as a step
function over discrete events.  External queries performed inside the
handlers (player current track, queue availability, thumbnail resolution)
are carried as snapshot fields of the events, reflecting the value the
query returns at handling time (the code is single-threaded).  Every
outgoing widget or player call is recorded in a trace.
-/

namespace SystemMediaControls

/-- Track categories of the player (`AudioMsgId::Type`).  The manager only
mirrors the `Song` category (line 40 of the source). -/
inductive AudioType
  | song
  | voice
  | video
  deriving DecidableEq

/-- The managed track type: `AudioMsgId::Type::Song`. -/
def managedType : AudioType := AudioType.song

/-- `base::Platform::SystemMediaControls::PlaybackStatus`. -/
inductive PlaybackStatus
  | playing
  | paused
  | stopped
  deriving DecidableEq

/-- `base::Platform::SystemMediaControls::Command`. -/
inductive Command
  | playPause
  | play
  | pause
  | next
  | previous
  | stop
  deriving DecidableEq

/-- The slice of `Media::Player::TrackState` that the manager reads: the
type of the track id, the two playback-phase predicates
`IsStoppedOrStopping state.state` and `IsPausedOrPausing state.state`
(the code consumes the phase only through these two predicates),
and the position and length fields. -/
structure TrackState where
  idType : AudioType
  stoppedOrStopping : Bool
  pausedOrPausing : Bool
  position : Int
  length : Int
  deriving DecidableEq

/-- Snapshot of the document attached to the current track, as the merged
track-changed/unlock handler reads it: the `isSongWithCover` flag and the
thumbnail of the freshly created media view at trigger time (`none` when
the thumbnail is not yet resolved).  Images are abstracted as naturals. -/
structure Document where
  isSongWithCover : Bool
  thumb : Option Nat
  deriving DecidableEq

/-- Snapshot of `mediaPlayer->current(type)` when it is non-null: the
composed `(title, performer)` pair produced by
`Ui::Text::FormatSongNameFor(document).composedName()` and the attached
document (`current.audio()` may itself be null). -/
structure Track where
  title : String
  performer : String
  document : Option Document
  deriving DecidableEq

/-- The discrete events the installed subscriptions can receive.  Fields
record the snapshots of external queries the corresponding handler makes:
* `updated`: one emission of `mediaPlayer->updatedNotifier()`;
* `startsPlay`: `mediaPlayer->startsPlay(type)` fired, with the values of
  `nextAvailable(type)` / `previousAvailable(type)` at handling time;
* `stops`: `mediaPlayer->stops(type)` fired;
* `trackChanged`: `trackChangedNotifier()` fired with the given type,
  `current` being what `mediaPlayer->current(type)` returns then;
* `lockChanged`: the passcode-lock boolean changed, with the
  `maybeActiveSession()` answer and the current-track snapshot;
* `command`: a widget command arrived on `commandRequests()`;
* `seekRequest`: a widget seek arrived on `seekRequests()`;
* `downloadFinished`: `downloaderTaskFinished()` fired, `thumb` being what
  `view->thumbnail()` returns for the pending view at that moment. -/
inductive Event
  | updated (st : TrackState)
  | startsPlay (nextAvail prevAvail : Bool)
  | stops
  | trackChanged (audioType : AudioType) (current : Option Track)
  | lockChanged (locked : Bool) (activeSession : Bool) (current : Option Track)
  | command (c : Command)
  | seekRequest (progress : ℚ)
  | downloadFinished (thumb : Option Nat)
  deriving DecidableEq

/-- Every call the manager makes on the widget (`_controls->...`) or on the
player (`mediaPlayer->...`), in the order the code performs them. -/
inductive Call
  | setPlaybackStatus (s : PlaybackStatus)
  | setPosition (p : Int)
  | setDuration (d : Int)
  | setEnabled (b : Bool)
  | setIsNextEnabled (b : Bool)
  | setIsPreviousEnabled (b : Bool)
  | setIsPlayPauseEnabled (b : Bool)
  | setIsStopEnabled (b : Bool)
  | updateDisplay
  | setArtist (s : String)
  | setTitle (s : String)
  | setThumbnail (image : Nat)
  | clearThumbnail
  | clearMetadata
  | playerPlayPause
  | playerPlay
  | playerPause
  | playerNext
  | playerPrevious
  | playerStop
  | playerFinishSeeking (progress : ℚ)
  deriving DecidableEq

/-- Construction-time facts: whether `_controls->init(parent)` returned
true and whether `_controls->seekingSupported()` returns true (queried at
lines 63 and 168; constant for a given platform widget). -/
structure Config where
  initOk : Bool
  seekingSupported : Bool
  deriving DecidableEq

/-- The mutable state of the manager:
* `lastStatus`, `lastPosition`, `lastLength`: the memory of the three
  `rpl::distinct_until_changed` stages (`none` before the first emission);
* `downloadActive`: whether a `downloaderTaskFinished` subscription is
  live in `_lifetimeDownload`;
* `cachedMediaView`: the view handles held in `_cachedMediaView`
  (abstracted as the ids of the created views);
* `nextViewId`: fresh-id counter for `document->createMediaView()`. -/
structure BridgeState where
  lastStatus : Option PlaybackStatus
  lastPosition : Option Int
  lastLength : Option Int
  downloadActive : Bool
  cachedMediaView : List Nat
  nextViewId : Nat
  deriving DecidableEq

/-- State right after a successful constructor run: no value has passed
any `distinct_until_changed` stage, `_lifetimeDownload` is empty, and
`_cachedMediaView` is empty. -/
def initialState : BridgeState :=
  { lastStatus := none
    lastPosition := none
    lastLength := none
    downloadActive := false
    cachedMediaView := []
    nextViewId := 0 }

/-- Lines 51-57: map the playback phase of a track state to a widget
`PlaybackStatus`. -/
def mapStatus (st : TrackState) : PlaybackStatus :=
  if st.stoppedOrStopping then PlaybackStatus.stopped
  else if st.pausedOrPausing then PlaybackStatus.paused
  else PlaybackStatus.playing

/-- One `rpl::distinct_until_changed` stage followed by a call emission:
given the memory of the stage and the freshly mapped value, emit nothing
when the value equals the remembered one, otherwise emit the
corresponding widget call; either way the memory afterwards holds the
value. -/
def dedupPush {α : Type} [DecidableEq α] (last : Option α) (v : α)
    (mk : α → Call) : Option α × List Call :=
  if last = some v then (some v, []) else (some v, [mk v])

/-- Lines 45-79: the three subscriptions fed by `updatedNotifier`, each
guarded by the track filter `state.id.type() == type`, each with its own
`distinct_until_changed` memory; the position and duration subscriptions
exist only when seeking is supported. -/
def stepUpdated (cfg : Config) (s : BridgeState) (st : TrackState) :
    BridgeState × List Call :=
  if st.idType = managedType then
    let r1 := dedupPush s.lastStatus (mapStatus st) Call.setPlaybackStatus
    if cfg.seekingSupported then
      let r2 := dedupPush s.lastPosition st.position Call.setPosition
      let r3 := dedupPush s.lastLength st.length Call.setDuration
      ({ s with lastStatus := r1.1, lastPosition := r2.1, lastLength := r3.1 },
        r1.2 ++ r2.2 ++ r3.2)
    else ({ s with lastStatus := r1.1 }, r1.2)
  else (s, [])

/-- Lines 120-154: the body of the merged track-changed/unlock handler.
It first destroys `_lifetimeDownload`, returns if there is no current
track, otherwise pushes artist and title, and handles the cover art:
a resolved thumbnail is pushed at once; an unresolved one installs a
`downloaderTaskFinished` subscription and clears the widget thumbnail;
no cover art clears the widget thumbnail. -/
def metadataRefresh (s0 : BridgeState) (current : Option Track) :
    BridgeState × List Call :=
  let s := { s0 with downloadActive := false }
  match current with
  | none => (s, [])
  | some track =>
    let meta := [Call.setArtist track.performer, Call.setTitle track.title]
    match track.document with
    | some doc =>
      if doc.isSongWithCover then
        let s1 := { s with
          cachedMediaView := s.cachedMediaView ++ [s.nextViewId]
          nextViewId := s.nextViewId + 1 }
        match doc.thumb with
        | some image => (s1, meta ++ [Call.setThumbnail image])
        | none =>
          ({ s1 with downloadActive := true }, meta ++ [Call.clearThumbnail])
      else (s, meta ++ [Call.clearThumbnail])
    | none => (s, meta ++ [Call.clearThumbnail])

/-- Lines 156-166: the command switch. -/
def dispatchCommand (c : Command) : Call :=
  match c with
  | Command.playPause => Call.playerPlayPause
  | Command.play => Call.playerPlay
  | Command.pause => Call.playerPause
  | Command.next => Call.playerNext
  | Command.previous => Call.playerPrevious
  | Command.stop => Call.playerStop

/-- One event processed by the installed subscriptions.  When `init`
returned false the constructor returned at line 38 before installing any
subscription, so every event is ignored.  Otherwise each event is handled
exactly as the corresponding handler in the source:
* `startsPlay` / `stops`: lines 81-99 (the merged enable/disable handler);
* `trackChanged` / the unlocked branch of `lockChanged`: lines 101-154,
  with the `rpl::before_next` hook at lines 112-115 emitting
  `setEnabled true; updateDisplay` before the merged handler body;
* `command`: lines 156-166; `seekRequest`: lines 168-173 (subscription
  only exists when seeking is supported);
* the locked branch of `lockChanged`: lines 175-180;
* `downloadFinished`: the inner subscription at lines 142-148. -/
def step (cfg : Config) (s : BridgeState) (e : Event) : BridgeState × List Call :=
  if cfg.initOk then
    match e with
    | Event.updated st => stepUpdated cfg s st
    | Event.startsPlay na pa =>
      ({ s with downloadActive := false },
        [Call.setEnabled true, Call.setIsNextEnabled na,
         Call.setIsPreviousEnabled pa, Call.setIsPlayPauseEnabled true,
         Call.setIsStopEnabled true,
         Call.setPlaybackStatus PlaybackStatus.playing, Call.updateDisplay])
    | Event.stops =>
      ({ s with downloadActive := false, cachedMediaView := [] },
        [Call.setEnabled false, Call.clearMetadata])
    | Event.trackChanged audioType current =>
      if audioType = managedType then metadataRefresh s current else (s, [])
    | Event.lockChanged locked active current =>
      if locked then
        if active then (s, [Call.setEnabled false]) else (s, [])
      else if current.isSome then
        let p := metadataRefresh s current
        (p.1, [Call.setEnabled true, Call.updateDisplay] ++ p.2)
      else (s, [])
    | Event.command c => (s, [dispatchCommand c])
    | Event.seekRequest progress =>
      if cfg.seekingSupported then (s, [Call.playerFinishSeeking progress])
      else (s, [])
    | Event.downloadFinished thumb =>
      if s.downloadActive then
        match thumb with
        | some image => ({ s with downloadActive := false },
            [Call.setThumbnail image])
        | none => (s, [])
      else (s, [])
  else (s, [])

/-- Process a sequence of events, concatenating the emitted calls. -/
def run (cfg : Config) : BridgeState → List Event → BridgeState × List Call
  | s, [] => (s, [])
  | s, e :: es =>
    let p := step cfg s e
    let q := run cfg p.1 es
    (q.1, p.2 ++ q.2)

/-- The subscriptions the constructor can install, in source order. -/
inductive SubKind
  | status
  | position
  | duration
  | playStop
  | trackChangedUnlock
  | commands
  | seek
  | lockDisable
  deriving DecidableEq

/-- Which subscriptions the constructor installs: none when `init` fails;
otherwise all of them except that the position, duration and seek
subscriptions exist only when the widget supports seeking. -/
def installedSubs (cfg : Config) : List SubKind :=
  if cfg.initOk then
    [SubKind.status]
      ++ (if cfg.seekingSupported then [SubKind.position, SubKind.duration] else [])
      ++ [SubKind.playStop, SubKind.trackChangedUnlock, SubKind.commands]
      ++ (if cfg.seekingSupported then [SubKind.seek] else [])
      ++ [SubKind.lockDisable]
  else []

/-- Project the playback-status widget calls out of a trace. -/
def statusOf : Call → Option PlaybackStatus
  | Call.setPlaybackStatus s => some s
  | _ => none

/-- Project the position widget calls out of a trace. -/
def positionOf : Call → Option Int
  | Call.setPosition p => some p
  | _ => none

/-- Project the duration widget calls out of a trace. -/
def durationOf : Call → Option Int
  | Call.setDuration d => some d
  | _ => none

def statusCalls (trace : List Call) : List PlaybackStatus :=
  trace.filterMap statusOf

def positionCalls (trace : List Call) : List Int :=
  trace.filterMap positionOf

def durationCalls (trace : List Call) : List Int :=
  trace.filterMap durationOf

/-- The calls that only the seeking-related wiring can produce. -/
def isSeekCall : Call → Bool
  | Call.setPosition _ => true
  | Call.setDuration _ => true
  | Call.playerFinishSeeking _ => true
  | _ => false

/-- A concrete current-track snapshot whose document carries cover art
with an already resolved thumbnail. -/
def coverTrack (t p : String) (image : Nat) : Track :=
  { title := t
    performer := p
    document := some { isSongWithCover := true, thumb := some image } }

/-- A single event respects one distinct-until-changed cell, described by
a state projection `get` (the memory) and a call projection `proj` (the
emissions of that cell): processing the event either emits nothing for
the cell and leaves its memory unchanged, or emits exactly one value,
stores it, and the memory differed from it beforehand. -/
def DedupCell {α : Type} (cfg : Config) (get : BridgeState → Option α)
    (proj : Call → Option α) (e : Event) : Prop :=
  ∀ s : BridgeState,
    ((step cfg s e).2.filterMap proj = [] ∧ get (step cfg s e).1 = get s) ∨
    (∃ m, (step cfg s e).2.filterMap proj = [m] ∧
      get (step cfg s e).1 = some m ∧ get s ≠ some m)

/-! Helper lemmas. -/

theorem run_nil (cfg : Config) (s : BridgeState) : run cfg s [] = (s, []) := rfl

theorem run_cons (cfg : Config) (s : BridgeState) (e : Event) (es : List Event) :
    run cfg s (e :: es) =
      ((run cfg (step cfg s e).1 es).1,
        (step cfg s e).2 ++ (run cfg (step cfg s e).1 es).2) := rfl

/-- Events that all respect a dedup cell produce a projected call
sequence with no two equal consecutive values (relative to the initial
memory of the cell). -/
theorem dedupCell_chain {α : Type} (cfg : Config)
    (get : BridgeState → Option α) (proj : Call → Option α)
    (es : List Event) (h : ∀ e ∈ es, DedupCell cfg get proj e)
    (s : BridgeState) :
    List.Chain' (fun x y => x ≠ y)
      ((get s).toList ++ ((run cfg s es).2.filterMap proj)) := by
  induction es generalizing s with
  | nil =>
    cases hs : get s <;> simp [run_nil, hs]
  | cons e es ih =>
    have he := h e (List.mem_cons_self e es)
    have hes : ∀ x ∈ es, DedupCell cfg get proj x :=
      fun x hx => h x (List.mem_cons_of_mem e hx)
    rw [run_cons, List.filterMap_append]
    rcases he s with ⟨h1, h2⟩ | ⟨m, h1, h2, h3⟩
    · have hih := ih hes (step cfg s e).1
      rw [h2] at hih
      rw [h1, List.nil_append]
      exact hih
    · have hih := ih hes (step cfg s e).1
      rw [h2] at hih
      rw [h1]
      cases hs : get s with
      | none => simpa using hih
      | some x =>
        have hxm : x ≠ m := fun hx => h3 (by rw [hs, hx])
        simp only [Option.toList] at hih ⊢
        simp only [List.singleton_append] at hih ⊢
        exact List.chain'_cons.mpr ⟨hxm, hih⟩

theorem filterMap_statusOf_dedupPush_pos (last : Option Int) (v : Int) :
    (dedupPush last v Call.setPosition).2.filterMap statusOf = [] := by
  unfold dedupPush
  split <;> simp [statusOf]

theorem filterMap_statusOf_dedupPush_dur (last : Option Int) (v : Int) :
    (dedupPush last v Call.setDuration).2.filterMap statusOf = [] := by
  unfold dedupPush
  split <;> simp [statusOf]

/-- Every player-state-update event respects the playback-status dedup
cell. -/
theorem dedupCell_status (cfg : Config) (st : TrackState) :
    DedupCell cfg (fun s => s.lastStatus) statusOf (Event.updated st) := by
  intro s
  by_cases hinit : cfg.initOk
  · simp only [step, hinit, if_true]
    by_cases hty : st.idType = managedType
    · simp only [stepUpdated, hty, if_true]
      by_cases hlast : s.lastStatus = some (mapStatus st)
      · left
        by_cases hseek : cfg.seekingSupported <;>
          simp only [hseek, if_true, if_false, List.filterMap_append,
            filterMap_statusOf_dedupPush_pos, filterMap_statusOf_dedupPush_dur,
            List.append_nil, List.nil_append] <;>
          simp [dedupPush, hlast, statusOf]
      · right
        refine ⟨mapStatus st, ?_, ?_, hlast⟩ <;>
          by_cases hseek : cfg.seekingSupported <;>
          simp only [hseek, if_true, if_false, List.filterMap_append,
            filterMap_statusOf_dedupPush_pos, filterMap_statusOf_dedupPush_dur,
            List.append_nil, List.nil_append] <;>
          simp [dedupPush, hlast, statusOf]
    · left
      simp [stepUpdated, hty]
  · left
    simp [step, hinit]

theorem filterMap_positionOf_dedupPush_status (last : Option PlaybackStatus)
    (v : PlaybackStatus) :
    (dedupPush last v Call.setPlaybackStatus).2.filterMap positionOf = [] := by
  unfold dedupPush
  split <;> simp [positionOf]

theorem filterMap_positionOf_dedupPush_dur (last : Option Int) (v : Int) :
    (dedupPush last v Call.setDuration).2.filterMap positionOf = [] := by
  unfold dedupPush
  split <;> simp [positionOf]

/-- Every player-state-update event respects the position dedup cell. -/
theorem dedupCell_position (cfg : Config) (st : TrackState) :
    DedupCell cfg (fun s => s.lastPosition) positionOf (Event.updated st) := by
  intro s
  by_cases hinit : cfg.initOk
  · simp only [step, hinit, if_true]
    by_cases hty : st.idType = managedType
    · simp only [stepUpdated, hty, if_true]
      by_cases hseek : cfg.seekingSupported
      · by_cases hlast : s.lastPosition = some st.position
        · left
          simp only [hseek, if_true, List.filterMap_append,
            filterMap_positionOf_dedupPush_status, filterMap_positionOf_dedupPush_dur,
            List.append_nil, List.nil_append]
          simp [dedupPush, hlast, positionOf]
        · right
          refine ⟨st.position, ?_, ?_, hlast⟩ <;>
            simp only [hseek, if_true, List.filterMap_append,
              filterMap_positionOf_dedupPush_status, filterMap_positionOf_dedupPush_dur,
              List.append_nil, List.nil_append] <;>
            simp [dedupPush, hlast, positionOf]
      · left
        simp only [hseek, if_false, Bool.false_eq_true]
        constructor
        · simp only [filterMap_positionOf_dedupPush_status]
        · trivial
    · left
      simp [stepUpdated, hty]
  · left
    simp [step, hinit]

theorem filterMap_durationOf_dedupPush_status (last : Option PlaybackStatus)
    (v : PlaybackStatus) :
    (dedupPush last v Call.setPlaybackStatus).2.filterMap durationOf = [] := by
  unfold dedupPush
  split <;> simp [durationOf]

theorem filterMap_durationOf_dedupPush_pos (last : Option Int) (v : Int) :
    (dedupPush last v Call.setPosition).2.filterMap durationOf = [] := by
  unfold dedupPush
  split <;> simp [durationOf]

/-- Every player-state-update event respects the duration dedup cell. -/
theorem dedupCell_duration (cfg : Config) (st : TrackState) :
    DedupCell cfg (fun s => s.lastLength) durationOf (Event.updated st) := by
  intro s
  by_cases hinit : cfg.initOk
  · simp only [step, hinit, if_true]
    by_cases hty : st.idType = managedType
    · simp only [stepUpdated, hty, if_true]
      by_cases hseek : cfg.seekingSupported
      · by_cases hlast : s.lastLength = some st.length
        · left
          simp only [hseek, if_true, List.filterMap_append,
            filterMap_durationOf_dedupPush_status, filterMap_durationOf_dedupPush_pos,
            List.append_nil, List.nil_append]
          simp [dedupPush, hlast, durationOf]
        · right
          refine ⟨st.length, ?_, ?_, hlast⟩ <;>
            simp only [hseek, if_true, List.filterMap_append,
              filterMap_durationOf_dedupPush_status, filterMap_durationOf_dedupPush_pos,
              List.append_nil, List.nil_append] <;>
            simp [dedupPush, hlast, durationOf]
      · left
        simp only [hseek, if_false, Bool.false_eq_true]
        constructor
        · simp only [filterMap_durationOf_dedupPush_status]
        · trivial
    · left
      simp [stepUpdated, hty]
  · left
    simp [step, hinit]

theorem isSeekCall_dedupPush_status (last : Option PlaybackStatus)
    (v : PlaybackStatus) :
    ∀ c ∈ (dedupPush last v Call.setPlaybackStatus).2, isSeekCall c = false := by
  unfold dedupPush
  split <;> simp [isSeekCall]

/-- The merged track-changed/unlock handler never emits a seek-related
call. -/
theorem isSeekCall_metadataRefresh (s : BridgeState) (current : Option Track) :
    ∀ c ∈ (metadataRefresh s current).2, isSeekCall c = false := by
  rcases current with _ | tr
  · simp [metadataRefresh]
  · rcases hd : tr.document with _ | doc
    · simp [metadataRefresh, hd, isSeekCall]
    · by_cases hc : doc.isSongWithCover
      · rcases ht : doc.thumb with _ | image
        · simp [metadataRefresh, hd, hc, ht, isSeekCall]
        · simp [metadataRefresh, hd, hc, ht, isSeekCall]
      · simp [metadataRefresh, hd, hc, isSeekCall]

/-- When the widget does not support seeking, no single event produces a
seek-related call. -/
theorem isSeekCall_step_noSeek (s : BridgeState) (e : Event) :
    ∀ c ∈ (step ⟨true, false⟩ s e).2, isSeekCall c = false := by
  cases e with
  | updated st =>
    by_cases hty : st.idType = managedType
    · simp only [step, stepUpdated, hty, if_true]
      simp only [show (Config.mk true false).initOk = true from rfl,
        show (Config.mk true false).seekingSupported = false from rfl,
        Bool.false_eq_true, if_false, if_true]
      exact isSeekCall_dedupPush_status _ _
    · simp [step, stepUpdated, hty]
  | startsPlay na pa => simp [step, isSeekCall]
  | stops => simp [step, isSeekCall]
  | trackChanged audioType current =>
    by_cases hty : audioType = managedType
    · intro c hc
      have hstep : step ⟨true, false⟩ s (Event.trackChanged audioType current) =
          metadataRefresh s current := by
        simp [step, hty]
      rw [hstep] at hc
      exact isSeekCall_metadataRefresh s current c hc
    · simp [step, hty]
  | lockChanged locked active current =>
    cases locked with
    | true => cases active <;> simp [step, isSeekCall]
    | false =>
      rcases current with _ | tr
      · simp [step]
      · intro c hc
        have hstep : step ⟨true, false⟩ s (Event.lockChanged false active (some tr)) =
            ((metadataRefresh s (some tr)).1,
              Call.setEnabled true :: Call.updateDisplay ::
                (metadataRefresh s (some tr)).2) := by
          simp [step]
        rw [hstep] at hc
        simp only [List.mem_cons] at hc
        rcases hc with hc | hc | hc
        · rw [hc]; rfl
        · rw [hc]; rfl
        · exact isSeekCall_metadataRefresh s (some tr) c hc
  | command c => cases c <;> simp [step, dispatchCommand, isSeekCall]
  | seekRequest progress => simp [step]
  | downloadFinished thumb =>
    cases hda : s.downloadActive
    · simp [step, hda]
    · rcases thumb with _ | image <;> simp [step, hda, isSeekCall]

/-- When the widget does not support seeking, no event sequence produces
a seek-related call. -/
theorem isSeekCall_run_noSeek (es : List Event) :
    ∀ s : BridgeState, ∀ c ∈ (run ⟨true, false⟩ s es).2, isSeekCall c = false := by
  induction es with
  | nil =>
    intro s c hc
    simp [run_nil] at hc
  | cons e es ih =>
    intro s c hc
    rw [run_cons] at hc
    rcases List.mem_append.mp hc with hc | hc
    · exact isSeekCall_step_noSeek s e c hc
    · exact ih _ c hc

/-- When `init` failed, no event is ever handled. -/
theorem run_not_inited (b : Bool) (es : List Event) :
    ∀ s : BridgeState, run ⟨false, b⟩ s es = (s, []) := by
  induction es with
  | nil => intro s; rfl
  | cons e es ih =>
    intro s
    have hstep : step ⟨false, b⟩ s e = (s, []) := by simp [step]
    rw [run_cons, hstep]
    simp [ih s]

/-- The merged track-changed/unlock handler only ever appends to
`_cachedMediaView`. -/
theorem metadataRefresh_cachedMediaView (s : BridgeState) (current : Option Track) :
    ∃ tail, (metadataRefresh s current).1.cachedMediaView =
      s.cachedMediaView ++ tail := by
  rcases current with _ | tr
  · exact ⟨[], by simp [metadataRefresh]⟩
  · rcases hd : tr.document with _ | doc
    · exact ⟨[], by simp [metadataRefresh, hd]⟩
    · by_cases hc : doc.isSongWithCover
      · rcases ht : doc.thumb with _ | image
        · exact ⟨[s.nextViewId], by simp [metadataRefresh, hd, hc, ht]⟩
        · exact ⟨[s.nextViewId], by simp [metadataRefresh, hd, hc, ht]⟩
      · exact ⟨[], by simp [metadataRefresh, hd, hc]⟩

/-! The claims. -/

/-- C1: if platform widget initialization (`_controls->init(parent)`)
returns false, the constructor returns early: no subscription is
installed, and for every subsequent event sequence no widget or player
call is made and the state is untouched. -/
theorem C1_init_failure_inert (b : Bool) (s : BridgeState) (es : List Event) :
    run ⟨false, b⟩ s es = (s, []) ∧ installedSubs ⟨false, b⟩ = [] := by
  refine ⟨run_not_inited b es s, ?_⟩
  simp [installedSubs]

/-- C2: every widget command is dispatched to exactly one player call,
the corresponding one: PlayPause to playPause, Play to play, Pause to
pause, Next to next, Previous to previous, Stop to stop; the handler
makes no other call and does not change the state. -/
theorem C2_command_routing (b : Bool) (s : BridgeState) (c : Command) :
    step ⟨true, b⟩ s (Event.command c) = (s, [dispatchCommand c]) ∧
    dispatchCommand Command.playPause = Call.playerPlayPause ∧
    dispatchCommand Command.play = Call.playerPlay ∧
    dispatchCommand Command.pause = Call.playerPause ∧
    dispatchCommand Command.next = Call.playerNext ∧
    dispatchCommand Command.previous = Call.playerPrevious ∧
    dispatchCommand Command.stop = Call.playerStop := by
  refine ⟨?_, rfl, rfl, rfl, rfl, rfl, rfl⟩
  simp [step]

/-- C4: on a playback-start event for the managed type the widget is
enabled, the next/previous capability flags take the player's
`nextAvailable`/`previousAvailable` answers, play-pause and stop
capability flags are set to true, the status is set to Playing and a
display refresh is requested; on a playback-stop event the cached
media-view handles are cleared and the widget metadata is cleared; both
transitions destroy the in-flight thumbnail-fetch subscription. -/
theorem C4_play_stop_boundary (b : Bool) (s : BridgeState) (na pa : Bool) :
    step ⟨true, b⟩ s (Event.startsPlay na pa) =
      ({ s with downloadActive := false },
        [Call.setEnabled true, Call.setIsNextEnabled na,
         Call.setIsPreviousEnabled pa, Call.setIsPlayPauseEnabled true,
         Call.setIsStopEnabled true,
         Call.setPlaybackStatus PlaybackStatus.playing, Call.updateDisplay]) ∧
    step ⟨true, b⟩ s Event.stops =
      ({ s with downloadActive := false, cachedMediaView := [] },
        [Call.setEnabled false, Call.clearMetadata]) ∧
    (step ⟨true, b⟩ s (Event.startsPlay na pa)).1.downloadActive = false ∧
    (step ⟨true, b⟩ s Event.stops).1.downloadActive = false := by
  refine ⟨?_, ?_, ?_, ?_⟩ <;> simp [step]

/-- C7: an unlock transition with a current track first emits
`setEnabled true` and `updateDisplay` (the `rpl::before_next` hook) and
only then the calls of the merged metadata-refresh handler — the very
same handler a managed track-change event runs. -/
theorem C7_unlock_before_refresh (b : Bool) (s : BridgeState) (active : Bool)
    (tr : Track) :
    step ⟨true, b⟩ s (Event.lockChanged false active (some tr)) =
      ((metadataRefresh s (some tr)).1,
        Call.setEnabled true :: Call.updateDisplay ::
          (metadataRefresh s (some tr)).2) ∧
    step ⟨true, b⟩ s (Event.trackChanged managedType (some tr)) =
      metadataRefresh s (some tr) := by
  constructor <;> simp [step]

/-- C8: a transition to locked disables the widget when some session is
active, and that path makes no other call; without an active session it
does nothing. -/
theorem C8_lock_disable (b : Bool) (s : BridgeState) (current : Option Track) :
    step ⟨true, b⟩ s (Event.lockChanged true true current) =
      (s, [Call.setEnabled false]) ∧
    step ⟨true, b⟩ s (Event.lockChanged true false current) = (s, []) := by
  constructor <;> simp [step]

/-- C10: the playback-start handler sets the status to Playing
unconditionally, without reading or writing the dedup memory of the
state-update path, so a managed state update mapping to Playing followed
by a start event yields two consecutive `setPlaybackStatus Playing`
calls. -/
theorem C10_start_bypasses_dedup (b : Bool) (s : BridgeState) (na pa : Bool) :
    Call.setPlaybackStatus PlaybackStatus.playing ∈
      (step ⟨true, b⟩ s (Event.startsPlay na pa)).2 ∧
    (step ⟨true, b⟩ s (Event.startsPlay na pa)).1.lastStatus = s.lastStatus ∧
    statusCalls (run ⟨true, b⟩ initialState
      [Event.updated ⟨managedType, false, false, 0, 0⟩,
       Event.startsPlay na pa]).2 =
      [PlaybackStatus.playing, PlaybackStatus.playing] := by
  refine ⟨?_, ?_, ?_⟩
  · simp [step]
  · simp [step]
  · cases b <;> rfl

/-- C3: over any sequence of player-state updates, only managed-type
updates produce anything (others leave state and trace untouched); the
phase maps to Stopped when stopped-or-stopping, to Paused when
paused-or-pausing, and to Playing otherwise; and the emitted
`setPlaybackStatus` values never repeat consecutively. -/
theorem C3_status_mapping_dedup (b : Bool) (es : List Event)
    (h : ∀ e ∈ es, ∃ st : TrackState, e = Event.updated st) :
    List.Chain' (fun x y => x ≠ y)
      (statusCalls (run ⟨true, b⟩ initialState es).2) ∧
    (∀ st : TrackState, ∀ s : BridgeState, st.idType ≠ managedType →
      step ⟨true, b⟩ s (Event.updated st) = (s, [])) ∧
    (∀ st : TrackState, st.stoppedOrStopping = true →
      mapStatus st = PlaybackStatus.stopped) ∧
    (∀ st : TrackState, st.stoppedOrStopping = false →
      st.pausedOrPausing = true → mapStatus st = PlaybackStatus.paused) ∧
    (∀ st : TrackState, st.stoppedOrStopping = false →
      st.pausedOrPausing = false → mapStatus st = PlaybackStatus.playing) := by
  refine ⟨?_, ?_, ?_, ?_, ?_⟩
  · have hcells : ∀ e ∈ es,
        DedupCell ⟨true, b⟩ (fun s => s.lastStatus) statusOf e := by
      intro e he
      obtain ⟨st, rfl⟩ := h e he
      exact dedupCell_status _ st
    have hchain := dedupCell_chain ⟨true, b⟩ (fun s => s.lastStatus) statusOf
      es hcells initialState
    simpa [initialState, statusCalls] using hchain
  · intro st s hty
    simp [step, stepUpdated, hty]
  · intro st hs
    simp [mapStatus, hs]
  · intro st h1 h2
    simp [mapStatus, h1, h2]
  · intro st h1 h2
    simp [mapStatus, h1, h2]

/-- Witness for C3 at a concrete two-update sequence. -/
theorem C3_witness :
    List.Chain' (fun x y => x ≠ y)
      (statusCalls (run ⟨true, true⟩ initialState
        [Event.updated ⟨AudioType.song, false, false, 0, 0⟩,
         Event.updated ⟨AudioType.song, false, false, 1, 1⟩]).2) ∧
    (∀ st : TrackState, ∀ s : BridgeState, st.idType ≠ managedType →
      step ⟨true, true⟩ s (Event.updated st) = (s, [])) ∧
    (∀ st : TrackState, st.stoppedOrStopping = true →
      mapStatus st = PlaybackStatus.stopped) ∧
    (∀ st : TrackState, st.stoppedOrStopping = false →
      st.pausedOrPausing = true → mapStatus st = PlaybackStatus.paused) ∧
    (∀ st : TrackState, st.stoppedOrStopping = false →
      st.pausedOrPausing = false → mapStatus st = PlaybackStatus.playing) :=
  C3_status_mapping_dedup true
    [Event.updated ⟨AudioType.song, false, false, 0, 0⟩,
     Event.updated ⟨AudioType.song, false, false, 1, 1⟩]
    (by
      intro e he
      simp only [List.mem_cons, List.not_mem_nil, or_false] at he
      rcases he with rfl | rfl
      · exact ⟨_, rfl⟩
      · exact ⟨_, rfl⟩)

/-- C5: on a metadata-refresh trigger the in-flight thumbnail
subscription is cancelled first; with no current track nothing further
happens; otherwise artist and title from the track's formatted name are
pushed; resolved cover art is pushed immediately, unresolved cover art
clears the widget thumbnail and installs a download-finished
subscription that pushes the thumbnail exactly once upon resolution and
tears itself down immediately; without cover art the widget thumbnail is
cleared. -/
theorem C5_metadata_refresh (b : Bool) (s : BridgeState)
    (current : Option Track) (active : Bool) (tr : Track)
    (t p : String) (image : Nat) (th : Option Nat)
    (ls : Option PlaybackStatus) (lp ll : Option Int)
    (cm : List Nat) (nv : Nat) :
    step ⟨true, b⟩ s (Event.trackChanged managedType current) =
      metadataRefresh s current ∧
    step ⟨true, b⟩ s (Event.lockChanged false active (some tr)) =
      ((metadataRefresh s (some tr)).1,
        Call.setEnabled true :: Call.updateDisplay ::
          (metadataRefresh s (some tr)).2) ∧
    metadataRefresh s none = ({ s with downloadActive := false }, []) ∧
    metadataRefresh s (some ⟨t, p, none⟩) =
      ({ s with downloadActive := false },
        [Call.setArtist p, Call.setTitle t, Call.clearThumbnail]) ∧
    metadataRefresh s (some ⟨t, p, some ⟨false, th⟩⟩) =
      ({ s with downloadActive := false },
        [Call.setArtist p, Call.setTitle t, Call.clearThumbnail]) ∧
    metadataRefresh s (some ⟨t, p, some ⟨true, some image⟩⟩) =
      ({ s with
          downloadActive := false
          cachedMediaView := s.cachedMediaView ++ [s.nextViewId]
          nextViewId := s.nextViewId + 1 },
        [Call.setArtist p, Call.setTitle t, Call.setThumbnail image]) ∧
    metadataRefresh s (some ⟨t, p, some ⟨true, none⟩⟩) =
      ({ s with
          downloadActive := true
          cachedMediaView := s.cachedMediaView ++ [s.nextViewId]
          nextViewId := s.nextViewId + 1 },
        [Call.setArtist p, Call.setTitle t, Call.clearThumbnail]) ∧
    step ⟨true, b⟩ ⟨ls, lp, ll, true, cm, nv⟩ (Event.downloadFinished none) =
      (⟨ls, lp, ll, true, cm, nv⟩, []) ∧
    step ⟨true, b⟩ ⟨ls, lp, ll, true, cm, nv⟩
        (Event.downloadFinished (some image)) =
      (⟨ls, lp, ll, false, cm, nv⟩, [Call.setThumbnail image]) ∧
    step ⟨true, b⟩ ⟨ls, lp, ll, false, cm, nv⟩ (Event.downloadFinished th) =
      (⟨ls, lp, ll, false, cm, nv⟩, []) ∧
    (run ⟨true, b⟩ ⟨ls, lp, ll, true, cm, nv⟩
      [Event.downloadFinished (some image),
       Event.downloadFinished (some image)]).2 = [Call.setThumbnail image] := by
  refine ⟨?_, ?_, ?_, ?_, ?_, ?_, ?_, ?_, ?_, ?_, ?_⟩
  · simp [step]
  · simp [step]
  · simp [metadataRefresh]
  · simp [metadataRefresh]
  · simp [metadataRefresh]
  · simp [metadataRefresh]
  · simp [metadataRefresh]
  · simp [step]
  · simp [step]
  · rcases th with _ | i <;> simp [step]
  · rw [run_cons]
    simp [step, run_cons, run_nil]

/-- C6: without seeking support no seek subscription exists and no
position, duration or finish-seeking call is ever made; with seeking
support a widget seek request forwards its progress to the player's
finishSeeking, and position and duration values from managed state
updates are pushed deduplicated on change. -/
theorem C6_seek_gating (es : List Event)
    (h : ∀ e ∈ es, ∃ st : TrackState, e = Event.updated st) :
    (∀ s : BridgeState, ∀ progress : ℚ,
      step ⟨true, false⟩ s (Event.seekRequest progress) = (s, [])) ∧
    SubKind.seek ∉ installedSubs ⟨true, false⟩ ∧
    SubKind.position ∉ installedSubs ⟨true, false⟩ ∧
    SubKind.duration ∉ installedSubs ⟨true, false⟩ ∧
    (∀ es2 : List Event, ∀ c ∈ (run ⟨true, false⟩ initialState es2).2,
      isSeekCall c = false) ∧
    SubKind.seek ∈ installedSubs ⟨true, true⟩ ∧
    SubKind.position ∈ installedSubs ⟨true, true⟩ ∧
    SubKind.duration ∈ installedSubs ⟨true, true⟩ ∧
    (∀ s : BridgeState, ∀ progress : ℚ,
      step ⟨true, true⟩ s (Event.seekRequest progress) =
        (s, [Call.playerFinishSeeking progress])) ∧
    List.Chain' (fun x y => x ≠ y)
      (positionCalls (run ⟨true, true⟩ initialState es).2) ∧
    List.Chain' (fun x y => x ≠ y)
      (durationCalls (run ⟨true, true⟩ initialState es).2) := by
  refine ⟨?_, ?_, ?_, ?_, ?_, ?_, ?_, ?_, ?_, ?_, ?_⟩
  · intro s progress
    simp [step]
  · decide
  · decide
  · decide
  · intro es2
    exact isSeekCall_run_noSeek es2 initialState
  · decide
  · decide
  · decide
  · intro s progress
    simp [step]
  · have hcells : ∀ e ∈ es,
        DedupCell ⟨true, true⟩ (fun s => s.lastPosition) positionOf e := by
      intro e he
      obtain ⟨st, rfl⟩ := h e he
      exact dedupCell_position _ st
    have hchain := dedupCell_chain ⟨true, true⟩ (fun s => s.lastPosition)
      positionOf es hcells initialState
    simpa [initialState, positionCalls] using hchain
  · have hcells : ∀ e ∈ es,
        DedupCell ⟨true, true⟩ (fun s => s.lastLength) durationOf e := by
      intro e he
      obtain ⟨st, rfl⟩ := h e he
      exact dedupCell_duration _ st
    have hchain := dedupCell_chain ⟨true, true⟩ (fun s => s.lastLength)
      durationOf es hcells initialState
    simpa [initialState, durationCalls] using hchain

/-- Witness for C6 at a concrete two-update sequence. -/
theorem C6_witness :
    (∀ s : BridgeState, ∀ progress : ℚ,
      step ⟨true, false⟩ s (Event.seekRequest progress) = (s, [])) ∧
    SubKind.seek ∉ installedSubs ⟨true, false⟩ ∧
    SubKind.position ∉ installedSubs ⟨true, false⟩ ∧
    SubKind.duration ∉ installedSubs ⟨true, false⟩ ∧
    (∀ es2 : List Event, ∀ c ∈ (run ⟨true, false⟩ initialState es2).2,
      isSeekCall c = false) ∧
    SubKind.seek ∈ installedSubs ⟨true, true⟩ ∧
    SubKind.position ∈ installedSubs ⟨true, true⟩ ∧
    SubKind.duration ∈ installedSubs ⟨true, true⟩ ∧
    (∀ s : BridgeState, ∀ progress : ℚ,
      step ⟨true, true⟩ s (Event.seekRequest progress) =
        (s, [Call.playerFinishSeeking progress])) ∧
    List.Chain' (fun x y => x ≠ y)
      (positionCalls (run ⟨true, true⟩ initialState
        [Event.updated ⟨AudioType.song, false, false, 3, 9⟩,
         Event.updated ⟨AudioType.song, false, false, 4, 9⟩]).2) ∧
    List.Chain' (fun x y => x ≠ y)
      (durationCalls (run ⟨true, true⟩ initialState
        [Event.updated ⟨AudioType.song, false, false, 3, 9⟩,
         Event.updated ⟨AudioType.song, false, false, 4, 9⟩]).2) :=
  C6_seek_gating
    [Event.updated ⟨AudioType.song, false, false, 3, 9⟩,
     Event.updated ⟨AudioType.song, false, false, 4, 9⟩]
    (by
      intro e he
      simp only [List.mem_cons, List.not_mem_nil, or_false] at he
      rcases he with rfl | rfl
      · exact ⟨_, rfl⟩
      · exact ⟨_, rfl⟩)

/-- C9 counterexample: after a second managed track change supersedes
the first fetch (whose thumbnail had even resolved immediately), the
view handle of the first fetch is still retained in the cached list —
retention does not end at resolution or supersession. -/
theorem C9_counterexample :
    0 ∈ (run ⟨true, true⟩ initialState
      [Event.trackChanged managedType (some (coverTrack "a" "b" 5)),
       Event.trackChanged managedType (some (coverTrack "c" "d" 6))]).1.cachedMediaView ∧
    (run ⟨true, true⟩ initialState
      [Event.trackChanged managedType (some (coverTrack "a" "b" 5)),
       Event.trackChanged managedType (some (coverTrack "c" "d" 6))]).1.cachedMediaView
      = [0, 1] := by
  constructor
  · rw [show (run ⟨true, true⟩ initialState
      [Event.trackChanged managedType (some (coverTrack "a" "b" 5)),
       Event.trackChanged managedType (some (coverTrack "c" "d" 6))]).1.cachedMediaView
      = [0, 1] from rfl]
    simp
  · rfl

/-- C9 as amended: a media-view handle is retained until the next
playback-stop event, which clears the whole list; no other event removes
handles (each event other than stop leaves the list a prefix of the new
one). -/
theorem C9_amended_retention (b : Bool) (s : BridgeState) :
    (step ⟨true, b⟩ s Event.stops).1.cachedMediaView = [] ∧
    (∀ e : Event, e ≠ Event.stops →
      ∃ tail, (step ⟨true, b⟩ s e).1.cachedMediaView =
        s.cachedMediaView ++ tail) := by
  constructor
  · simp [step]
  · intro e he
    cases e with
    | updated st =>
      refine ⟨[], ?_⟩
      cases b <;> by_cases hty : st.idType = managedType <;>
        simp [step, stepUpdated, hty]
    | startsPlay na pa => exact ⟨[], by simp [step]⟩
    | stops => exact absurd rfl he
    | trackChanged audioType current =>
      by_cases hty : audioType = managedType
      · have hstep : step ⟨true, b⟩ s (Event.trackChanged audioType current) =
            metadataRefresh s current := by simp [step, hty]
        rw [hstep]
        exact metadataRefresh_cachedMediaView s current
      · exact ⟨[], by simp [step, hty]⟩
    | lockChanged locked active current =>
      cases locked with
      | true => cases active <;> exact ⟨[], by simp [step]⟩
      | false =>
        rcases current with _ | tr
        · exact ⟨[], by simp [step]⟩
        · have hstep : step ⟨true, b⟩ s (Event.lockChanged false active (some tr)) =
              ((metadataRefresh s (some tr)).1,
                Call.setEnabled true :: Call.updateDisplay ::
                  (metadataRefresh s (some tr)).2) := by simp [step]
          rw [hstep]
          exact metadataRefresh_cachedMediaView s (some tr)
    | command c => exact ⟨[], by simp [step]⟩
    | seekRequest progress => exact ⟨[], by cases b <;> simp [step]⟩
    | downloadFinished thumb =>
      refine ⟨[], ?_⟩
      cases hda : s.downloadActive
      · simp [step, hda]
      · rcases thumb with _ | i <;> simp [step, hda]

/-- Witness for the amended C9 at a concrete non-stop event. -/
theorem C9_witness :
    ∃ tail, (step ⟨true, true⟩ initialState
      (Event.startsPlay true true)).1.cachedMediaView =
      initialState.cachedMediaView ++ tail :=
  (C9_amended_retention true initialState).2 (Event.startsPlay true true)
    (by decide)

end SystemMediaControls
